import Mathlib

/-!
Shallow embedding of the analytical contaminant transport scripts
(2D_contaminant_plot.py and graph-final.py).  Float arithmetic is modelled
over the exact rationals; the numeric primitives of the runtime
(scipy.special.erf, scipy.special.erfc, and the square root computed by the
Python power with exponent one half) are modelled as an explicit record of
function parameters threaded through the code, since the scripts treat them
as black boxes.
-/

namespace Transport

/-- Record of the numeric primitives used by the scripts. -/
structure Numerics where
  erf : ℚ → ℚ
  erfc : ℚ → ℚ
  sqrt : ℚ → ℚ

/-- Source class of both scripts: width and concentration
(micro-gram per liter). -/
structure Source where
  width : ℚ
  concentration : ℚ

/-- Material class of both scripts: longitudinal and transverse
dispersivity. -/
structure Material where
  ax : ℚ
  ay : ℚ

/-- Well class of both scripts: observation point offsets in meters. -/
structure Well where
  dx : ℚ
  dy : ℚ

/-- Unit conversion ft_to_m of both scripts: divides the input by 0.3048. -/
def ft_to_m (ft : ℚ) : ℚ := ft / 0.3048

/-- Modelled from the spec: the inverse conversion meters to feet, which
multiplies by 0.3048.  This function appears only in the spec (section 8,
unit round trip); it is not present in the source files. -/
def m_to_ft (m : ℚ) : ℚ := m * 0.3048

/-- Longitudinal spread function spread_x_positive of both scripts: erfc of
the longitudinal argument. -/
def spread_x_positive (num : Numerics) (material : Material) (well : Well)
    (vel_time : ℚ) : ℚ :=
  num.erfc ((well.dx - vel_time) / (2 * num.sqrt (material.ax * vel_time)))

/-- Upper lateral spread function spread_y_positive of both scripts: erf at
the upper lateral bound. -/
def spread_y_positive (num : Numerics) (source : Source) (material : Material)
    (well : Well) : ℚ :=
  num.erf ((well.dy + source.width / 2) / (2 * num.sqrt (material.ay * well.dx)))

/-- Lower lateral spread function spread_y_negative of both scripts: erf at
the lower lateral bound. -/
def spread_y_negative (num : Numerics) (source : Source) (material : Material)
    (well : Well) : ℚ :=
  num.erf ((well.dy - source.width / 2) / (2 * num.sqrt (material.ay * well.dx)))

/-- Rounding to two decimal places, modelling the float of
format(concentration, 0.2f) applied in calc_concentration.  Python formatting
rounds the underlying binary float with ties to even; over exact rationals we
use the standard round, which agrees except at exact two-decimal midpoints. -/
def round2 (c : ℚ) : ℚ := ((round (c * 100) : ℤ) : ℚ) / 100

/-- Thresholding function convert_to_volume of both scripts: scale the combined spread by a quarter
of the source concentration, clamp values at or below 0.01 to zero, and round
the rest to two decimal places. -/
def convert_to_volume (source : Source) (value : ℚ) : ℚ :=
  let concentration := source.concentration / 4 * value
  if concentration ≤ 0.01 then 0 else round2 concentration

/-- Point evaluator calc_concentration of both scripts: combine the three spread factors and
convert to a concentration. -/
def calc_concentration (num : Numerics) (source : Source) (material : Material)
    (well : Well) (vel_time : ℚ) : ℚ :=
  convert_to_volume source
    (spread_x_positive num material well vel_time *
      (spread_y_positive num source material well -
        spread_y_negative num source material well))

/-- The x grid of both scripts: range(2, 450, 2), in feet. -/
def grid_x : List ℤ := (List.range' 2 224 2).map fun n : ℕ => (n : ℤ)

/-- The y grid of both scripts: range(0, 201), in feet. -/
def grid_y : List ℤ := (List.range 201).map fun n : ℕ => (n : ℤ)

/-- The common double loop of get_data in both scripts: one evaluated sample
per half-plane grid point, keyed by the feet coordinates and carrying the
concentration computed at the meter-converted coordinates. -/
def sample_points (num : Numerics) (source : Source) (material : Material)
    (vt : ℚ) : List (ℤ × ℤ × ℚ) :=
  grid_x.flatMap fun dist_x => grid_y.map fun dist_y =>
    (dist_x, dist_y,
      calc_concentration num source material
        ⟨ft_to_m (dist_x : ℚ), ft_to_m (dist_y : ℚ)⟩ vt)

/-- Band sampler get_data of 2D_contaminant_plot.py: sorts the samples into the four
concentration bands over_900, over_500, over_300, over_100, dropping every
sample whose concentration is below 100.  The per-iteration appends of the
loop are modelled by order-preserving filters over the loop sequence. -/
def get_data1 (num : Numerics) (source : Source) (material : Material)
    (vt : ℚ) : List (List (ℤ × ℤ × ℚ)) :=
  let pts := sample_points num source material vt
  [pts.filter fun p => decide (900 ≤ p.2.2),
   pts.filter fun p => decide (500 ≤ p.2.2 ∧ p.2.2 < 900),
   pts.filter fun p => decide (300 ≤ p.2.2 ∧ p.2.2 < 500),
   pts.filter fun p => decide (100 ≤ p.2.2 ∧ p.2.2 < 300)]

/-- Mirror function reflect_over_y_axis of 2D_contaminant_plot.py: the list followed by the
list of samples with negated y coordinate. -/
def reflect_over_y_axis (d : List (ℤ × ℤ × ℚ)) : List (ℤ × ℤ × ℚ) :=
  d ++ d.map fun coord => (coord.1, -coord.2.1, coord.2.2)

/-- Band mirroring get_all_coord of 2D_contaminant_plot.py: mirror every
band. -/
def get_all_coord1 (data : List (List (ℤ × ℤ × ℚ))) : List (List (ℤ × ℤ × ℚ)) :=
  data.map reflect_over_y_axis

/-- Flat sampler get_data of graph-final.py: the three parallel coordinate lists together
with the flat triple list tri_data; all four lists are appended to in the
same loop, so the parallel lists are the componentwise projections of the
triple list. -/
def get_data2 (num : Numerics) (source : Source) (material : Material)
    (vt : ℚ) : (List ℤ × List ℤ × List ℚ) × List (ℤ × ℤ × ℚ) :=
  let tri := sample_points num source material vt
  ((tri.map fun p => p.1, tri.map fun p => p.2.1, tri.map fun p => p.2.2), tri)

/-- Mirror function reflect_over_y_axis of graph-final.py, acting on the parallel lists:
x and z are repeated, y is followed by its elementwise negation. -/
def reflect_over_y_axis2 (d : List ℤ × List ℤ × List ℚ) :
    List ℤ × List ℤ × List ℚ :=
  (d.1 ++ d.1, d.2.1 ++ d.2.1.map fun v => -v, d.2.2 ++ d.2.2)

/-- Field mirroring get_all_coord of graph-final.py. -/
def get_all_coord2 (d : List ℤ × List ℤ × List ℚ) : List ℤ × List ℤ × List ℚ :=
  reflect_over_y_axis2 d

/-- Recombination of the parallel lists into samples; create_plot of
graph-final.py enumerates the three lists back into exactly these tuples. -/
def zip_samples (xs ys : List ℤ) (zs : List ℚ) : List (ℤ × ℤ × ℚ) :=
  xs.zip (ys.zip zs)

/-- The full mirrored field of graph-final.py, viewed as samples. -/
def full_field2 (num : Numerics) (source : Source) (material : Material)
    (vt : ℚ) : List (ℤ × ℤ × ℚ) :=
  let c := get_all_coord2 (get_data2 num source material vt).1
  zip_samples c.1 c.2.1 c.2.2

/-- The membership test used by get_specific_concentration of
2D_contaminant_plot.py: set([x, y]).issubset(lst) holds exactly when each
queried coordinate occurs somewhere among the three entries of the sample,
in any position, with numeric equality across int and float. -/
def coordinate_in_sample (v : ℤ) (p : ℤ × ℤ × ℚ) : Bool :=
  decide (v = p.1) || decide (v = p.2.1) || decide ((v : ℚ) = p.2.2)

/-- Set-containment lookup get_specific_concentration of
2D_contaminant_plot.py: the first sample,
scanning the bands in order, whose entries contain both query coordinates;
none when no sample matches. -/
def get_specific_concentration1 (coord_x coord_y : ℤ)
    (data : List (List (ℤ × ℤ × ℚ))) : Option ℚ :=
  (data.flatten.find? fun lst =>
    coordinate_in_sample coord_x lst && coordinate_in_sample coord_y lst).map
    fun lst => lst.2.2

/-- The matching loop of get_specific_concentration of graph-final.py:
user_con starts at 0 and is overwritten by the concentration of every sample
whose first entry equals x and whose second entry equals the absolute value
of y. -/
def get_specific_concentration2 (user_x user_y : ℤ)
    (data : List (ℤ × ℤ × ℚ)) : ℚ :=
  data.foldl
    (fun user_con pair =>
      if user_x = pair.1 ∧ |user_y| = pair.2.1 then pair.2.2 else user_con) 0

/-- Modelled from the spec (sections 4.2 and 4.3, quoted in claim C1): the
raw point value, a quarter of the source concentration times erfc of the
longitudinal argument times the difference of the two lateral erf terms,
before thresholding and rounding. -/
def spec_raw_value (num : Numerics) (source : Source) (material : Material)
    (well : Well) (vel_time : ℚ) : ℚ :=
  source.concentration / 4 *
    (num.erfc ((well.dx - vel_time) / (2 * num.sqrt (material.ax * vel_time))) *
      (num.erf ((well.dy + source.width / 2) /
          (2 * num.sqrt (material.ay * well.dx))) -
        num.erf ((well.dy - source.width / 2) /
          (2 * num.sqrt (material.ay * well.dx)))))

/-- Identity instantiation of the numeric primitives, used in witnesses. -/
def num_id : Numerics := ⟨id, id, id⟩

/-- Zero instantiation of the numeric primitives. -/
def num_zero : Numerics := ⟨fun _ => 0, fun _ => 0, fun _ => 0⟩

/-- A small test source fixture: width 2, concentration 4. -/
def src_test : Source := ⟨2, 4⟩

/-- A test material fixture with both dispersivities equal to one. -/
def mat_test : Material := ⟨1, 1⟩

/-- A source fixture making every grid concentration land in the over_900
band under the identity numeric primitives: width 16000, concentration 16. -/
def src_big : Source := ⟨16000, 16⟩

/-- Any output of convert_to_volume is either exactly zero or at least the
0.01 threshold: values at or below 0.01 are clamped to zero, and any larger
value rounds to an integer number of hundredths that is at least one. -/
lemma convert_to_volume_zero_or_threshold (source : Source) (value : ℚ) :
    convert_to_volume source value = 0 ∨
      0.01 ≤ convert_to_volume source value := by
  unfold convert_to_volume
  by_cases h : source.concentration / 4 * value ≤ 0.01
  · left
    simp [h]
  · right
    rw [if_neg h]
    push_neg at h
    unfold round2
    have h1 : (1 : ℤ) ≤ round (source.concentration / 4 * value * 100) := by
      rw [round_eq, Int.le_floor]
      push_cast
      norm_num at h ⊢
      linarith
    have h2 : (1 : ℚ) ≤ ((round (source.concentration / 4 * value * 100) : ℤ) : ℚ) := by
      exact_mod_cast h1
    norm_num
    linarith

/-- A list followed by its reflection is closed under reflection: every
recorded sample has its mirror image recorded as well. -/
lemma mirror_mem {l : List (ℤ × ℤ × ℚ)} {x y : ℤ} {c : ℚ}
    (h : (x, y, c) ∈ l ++ l.map fun p => (p.1, -p.2.1, p.2.2)) :
    (x, -y, c) ∈ l ++ l.map fun p => (p.1, -p.2.1, p.2.2) := by
  rcases List.mem_append.mp h with h1 | h2
  · exact List.mem_append_right _ (List.mem_map.mpr ⟨(x, y, c), h1, rfl⟩)
  · rcases List.mem_map.mp h2 with ⟨q, hq, he⟩
    obtain ⟨a, b, d⟩ := q
    have ha : a = x := congrArg Prod.fst he
    have hb : -b = y := congrArg (fun r => r.2.1) he
    have hd : d = c := congrArg (fun r => r.2.2) he
    have hq2 : (a, b, d) = (x, -y, c) := by
      rw [ha, hd, ← hb, neg_neg]
    exact List.mem_append_left _ (hq2 ▸ hq)

/-- The zipped full field of graph-final.py equals the half-plane triple
list followed by its reflection. -/
lemma full_field2_eq (num : Numerics) (source : Source) (material : Material)
    (vt : ℚ) :
    full_field2 num source material vt =
      sample_points num source material vt ++
        (sample_points num source material vt).map
          fun p => (p.1, -p.2.1, p.2.2) := by
  show zip_samples
      (((sample_points num source material vt).map fun p => p.1) ++
        (sample_points num source material vt).map fun p => p.1)
      (((sample_points num source material vt).map fun p => p.2.1) ++
        ((sample_points num source material vt).map fun p => p.2.1).map
          fun v => -v)
      (((sample_points num source material vt).map fun p => p.2.2) ++
        (sample_points num source material vt).map fun p => p.2.2) = _
  unfold zip_samples
  rw [List.zip_append (by simp), List.zip_append (by simp), List.map_map,
    List.zip_map', List.zip_map', List.zip_map', List.zip_map']
  have h1 : (fun (p : ℤ × ℤ × ℚ) => (p.1, p.2.1, p.2.2)) =
      fun p : ℤ × ℤ × ℚ => p := rfl
  have h2 : (fun (p : ℤ × ℤ × ℚ) => (p.1, ((fun v : ℤ => -v) ∘ fun p : ℤ × ℤ × ℚ => p.2.1) p, p.2.2)) =
      fun p : ℤ × ℤ × ℚ => (p.1, -p.2.1, p.2.2) := rfl
  rw [h1, h2, List.map_id']

/-- Claim C9: over exact rational arithmetic, converting a value with
ft_to_m (division by 0.3048) and then applying the inverse conversion
m_to_ft (multiplication by 0.3048) returns the original value. -/
theorem C9_unit_round_trip : ∀ v : ℚ, m_to_ft (ft_to_m v) = v := by
  intro v
  unfold m_to_ft ft_to_m
  rw [div_mul_cancel₀]
  norm_num

/-- Claim C1: for an observation point with positive x, positive travel
distance and positive dispersivities, the point concentration evaluator
returns exactly the thresholding and rounding of the raw value, that is of
(concentration / 4) times erfc((x - vt) / (2 sqrt(ax vt))) times
(erf((y + width/2) / (2 sqrt(ay x))) - erf((y - width/2) / (2 sqrt(ay x)))). -/
theorem C1_point_concentration_formula (num : Numerics) (source : Source)
    (material : Material) (well : Well) (vel_time : ℚ)
    (_hx : 0 < well.dx) (_hvt : 0 < vel_time)
    (_hax : 0 < material.ax) (_hay : 0 < material.ay) :
    calc_concentration num source material well vel_time =
      if spec_raw_value num source material well vel_time ≤ 0.01 then 0
      else round2 (spec_raw_value num source material well vel_time) := rfl

/-- Concrete witness for claim C1 at positive inputs. -/
theorem C1_point_concentration_formula_witness :
    calc_concentration num_id src_test mat_test ⟨1, 0⟩ 1 =
      if spec_raw_value num_id src_test mat_test ⟨1, 0⟩ 1 ≤ 0.01 then 0
      else round2 (spec_raw_value num_id src_test mat_test ⟨1, 0⟩ 1) :=
  C1_point_concentration_formula num_id src_test mat_test ⟨1, 0⟩ 1
    (by decide) (by decide) (by decide) (by decide)

/-- Claim C2: if the computed concentration, a quarter of the source
concentration times the combined spread value, is at most 0.01, then
convert_to_volume returns exactly 0; otherwise it returns that value rounded
to two decimal places. -/
theorem C2_threshold_and_rounding (source : Source) (value : ℚ) :
    (source.concentration / 4 * value ≤ 0.01 →
      convert_to_volume source value = 0) ∧
    (0.01 < source.concentration / 4 * value →
      convert_to_volume source value =
        round2 (source.concentration / 4 * value)) := by
  constructor
  · intro h
    unfold convert_to_volume
    rw [if_pos h]
  · intro h
    unfold convert_to_volume
    rw [if_neg (not_le.mpr h)]

/-- Concrete witness for claim C2, exercising both branches. -/
theorem C2_threshold_and_rounding_witness :
    convert_to_volume src_test 0 = 0 ∧
      convert_to_volume src_test 2 =
        round2 (src_test.concentration / 4 * 2) :=
  ⟨(C2_threshold_and_rounding src_test 0).1 (by norm_num [src_test]),
    (C2_threshold_and_rounding src_test 2).2 (by norm_num [src_test])⟩

/-- Claim C6 evaluation: the embedded spread_x_positive performs no input
validation; at the non-positive travel distance -1 it still returns a value,
namely the erfc primitive applied to the unguarded argument, which is -1
under the identity primitives, rather than rejecting the input. -/
theorem C6_spread_no_input_rejection :
    spread_x_positive num_id mat_test ⟨1, 0⟩ (-1) = -1 := by
  norm_num [spread_x_positive, num_id, mat_test]

/-- Claim C7 evaluation: the lookup of 2D_contaminant_plot.py matches by set
containment rather than exact coordinate equality: the query (2, 50) against
a field whose only sample is keyed (50, 2) returns that sample, although no
sample with coordinates (2, 50) exists, instead of yielding 0. -/
theorem C7_lookup_set_subset_match :
    get_specific_concentration1 2 50 [[(50, 2, 150)]] = some 150 := by
  norm_num [get_specific_concentration1, coordinate_in_sample]

/-- Unfolding equation for calc_concentration. -/
lemma calc_concentration_def (num : Numerics) (source : Source)
    (material : Material) (well : Well) (vel_time : ℚ) :
    calc_concentration num source material well vel_time =
      convert_to_volume source
        (spread_x_positive num material well vel_time *
          (spread_y_positive num source material well -
            spread_y_negative num source material well)) := rfl

/-- Characterization of the half-plane samples: membership in sample_points
is exactly being the evaluated triple of a grid index pair. -/
lemma mem_sample_points_iff (num : Numerics) (source : Source)
    (material : Material) (vt : ℚ) (p : ℤ × ℤ × ℚ) :
    p ∈ sample_points num source material vt ↔
      ∃ i : ℕ, i < 224 ∧ ∃ j : ℕ, j < 201 ∧
        p = ((2 + 2 * i : ℤ), (j : ℤ),
          calc_concentration num source material
            ⟨ft_to_m ((2 + 2 * i : ℤ) : ℚ), ft_to_m ((j : ℤ) : ℚ)⟩ vt) := by
  unfold sample_points grid_x grid_y
  constructor
  · intro hp
    rcases List.mem_flatMap.mp hp with ⟨dx, hdx, hp2⟩
    rcases List.mem_map.mp hp2 with ⟨dy, hdy, rfl⟩
    rcases List.mem_map.mp hdx with ⟨n, hn, rfl⟩
    rcases List.mem_range'.mp hn with ⟨i, hi, rfl⟩
    rcases List.mem_map.mp hdy with ⟨m, hm, rfl⟩
    have hcast : ((2 + 2 * i : ℕ) : ℤ) = 2 + 2 * (i : ℤ) := by push_cast; ring
    refine ⟨i, hi, m, List.mem_range.mp hm, ?_⟩
    rw [hcast]
  · rintro ⟨i, hi, j, hj, rfl⟩
    refine List.mem_flatMap.mpr ⟨(2 + 2 * (i : ℤ)), ?_, ?_⟩
    · exact List.mem_map.mpr
        ⟨2 + 2 * i, List.mem_range'.mpr ⟨i, hi, rfl⟩, by push_cast; ring⟩
    · exact List.mem_map.mpr
        ⟨(j : ℤ), List.mem_map.mpr ⟨j, List.mem_range.mpr hj, rfl⟩, rfl⟩

/-- Every even x between 2 and 448 paired with every y between 0 and 200 is
sampled, keyed in feet and carrying the concentration evaluated at the
meter-converted point. -/
lemma sample_points_coverage (num : Numerics) (source : Source)
    (material : Material) (vt : ℚ) (x y : ℤ) (hx2 : 2 ≤ x) (hx4 : x ≤ 448)
    (hxe : x % 2 = 0) (hy0 : 0 ≤ y) (hy2 : y ≤ 200) :
    (x, y, calc_concentration num source material
        ⟨ft_to_m (x : ℚ), ft_to_m (y : ℚ)⟩ vt) ∈
      sample_points num source material vt := by
  rw [mem_sample_points_iff]
  refine ⟨((x - 2) / 2).toNat, by omega, y.toNat, by omega, ?_⟩
  have h1 : (2 + 2 * ((((x - 2) / 2).toNat : ℤ))) = x := by
    rw [Int.toNat_of_nonneg (by omega)]
    omega
  have h2 : ((y.toNat : ℤ)) = y := Int.toNat_of_nonneg hy0
  rw [h1, h2]

/-- The full mirrored field contains, for every even x in [2, 448] and every
y in [-200, 200], a sample keyed (x, y) carrying the concentration evaluated
at the meter conversion of (x, absolute value of y). -/
lemma full_field2_coverage (num : Numerics) (source : Source)
    (material : Material) (vt : ℚ) (x y : ℤ) (hx2 : 2 ≤ x) (hx4 : x ≤ 448)
    (hxe : x % 2 = 0) (hy1 : -200 ≤ y) (hy2 : y ≤ 200) :
    (x, y, calc_concentration num source material
        ⟨ft_to_m (x : ℚ), ft_to_m ((|y| : ℤ) : ℚ)⟩ vt) ∈
      full_field2 num source material vt := by
  rw [full_field2_eq]
  rcases le_or_lt 0 y with hy | hy
  · refine List.mem_append_left _ ?_
    have ha : |y| = y := abs_of_nonneg hy
    rw [ha]
    exact sample_points_coverage num source material vt x y hx2 hx4 hxe hy hy2
  · refine List.mem_append_right _ ?_
    have ha : |y| = -y := abs_of_neg hy
    refine List.mem_map.mpr
      ⟨(x, -y, calc_concentration num source material
          ⟨ft_to_m (x : ℚ), ft_to_m ((|y| : ℤ) : ℚ)⟩ vt), ?_, by rw [neg_neg]⟩
    rw [ha]
    exact sample_points_coverage num source material vt x (-y)
      hx2 hx4 hxe (by omega) (by omega)

/-- Claim C4: every recorded sample (x, y, c) of a mirrored collection has
the sample (x, -y, c) recorded as well, with x and c unchanged; stated for
the per-band mirroring of 2D_contaminant_plot.py and for the mirrored
parallel lists of graph-final.py recombined into samples. -/
theorem C4_mirror_symmetry (d : List (ℤ × ℤ × ℚ)) (num : Numerics)
    (source : Source) (material : Material) (vt : ℚ) (x y : ℤ) (c : ℚ) :
    ((x, y, c) ∈ reflect_over_y_axis d →
      (x, -y, c) ∈ reflect_over_y_axis d) ∧
    ((x, y, c) ∈ full_field2 num source material vt →
      (x, -y, c) ∈ full_field2 num source material vt) := by
  constructor
  · intro h
    unfold reflect_over_y_axis at h ⊢
    exact mirror_mem h
  · intro h
    rw [full_field2_eq] at h ⊢
    exact mirror_mem h

/-- Concrete witness for claim C4: the mirrored sample of a recorded sample
is recorded, in a reflected band and in the full field. -/
theorem C4_mirror_symmetry_witness :
    ((1 : ℤ), (-2 : ℤ), (3 : ℚ)) ∈ reflect_over_y_axis [(1, 2, 3)] ∧
      ((2 : ℤ), -(0 : ℤ), calc_concentration num_id src_test mat_test
        ⟨ft_to_m ((2 : ℤ) : ℚ), ft_to_m ((|(0 : ℤ)| : ℤ) : ℚ)⟩ 1) ∈
        full_field2 num_id src_test mat_test 1 :=
  ⟨(C4_mirror_symmetry [(1, 2, 3)] num_id src_test mat_test 1 1 2 3).1
      (by simp [reflect_over_y_axis]),
    (C4_mirror_symmetry [] num_id src_test mat_test 1 2 0 _).2
      (full_field2_coverage num_id src_test mat_test 1 2 0
        (by decide) (by decide) (by decide) (by decide) (by decide))⟩

/-- Claim C3 (amended): in graph-final.py the flat triple list tri_data
contains, for every even x in [2, 448] and every y in [-200, 200], the
sample keyed by the feet coordinates (x, absolute value of y) carrying the
evaluator result for the meter-converted point, and the mirrored full field
contains the sample keyed (x, y) carrying the value at the absolute y. -/
theorem C3_sampler_coverage (num : Numerics) (source : Source)
    (material : Material) (vt : ℚ) (x y : ℤ) (hx2 : 2 ≤ x) (hx4 : x ≤ 448)
    (hxe : x % 2 = 0) (hy1 : -200 ≤ y) (hy2 : y ≤ 200) :
    (x, (|y| : ℤ), calc_concentration num source material
        ⟨ft_to_m (x : ℚ), ft_to_m ((|y| : ℤ) : ℚ)⟩ vt) ∈
        (get_data2 num source material vt).2 ∧
      (x, y, calc_concentration num source material
        ⟨ft_to_m (x : ℚ), ft_to_m ((|y| : ℤ) : ℚ)⟩ vt) ∈
        full_field2 num source material vt := by
  constructor
  · show _ ∈ sample_points num source material vt
    exact sample_points_coverage num source material vt x |y| hx2 hx4 hxe
      (abs_nonneg y) (abs_le.mpr ⟨hy1, hy2⟩)
  · exact full_field2_coverage num source material vt x y hx2 hx4 hxe hy1 hy2

/-- Concrete witness for claim C3 at the grid point (2, -1). -/
theorem C3_sampler_coverage_witness :
    ((2 : ℤ), (|(-1 : ℤ)| : ℤ), calc_concentration num_id src_test mat_test
        ⟨ft_to_m ((2 : ℤ) : ℚ), ft_to_m ((|(-1 : ℤ)| : ℤ) : ℚ)⟩ 1) ∈
        (get_data2 num_id src_test mat_test 1).2 ∧
      ((2 : ℤ), (-1 : ℤ), calc_concentration num_id src_test mat_test
        ⟨ft_to_m ((2 : ℤ) : ℚ), ft_to_m ((|(-1 : ℤ)| : ℤ) : ℚ)⟩ 1) ∈
        full_field2 num_id src_test mat_test 1 :=
  C3_sampler_coverage num_id src_test mat_test 1 2 (-1)
    (by decide) (by decide) (by decide) (by decide) (by decide)

/-- Claim C3 counterexample: under the zero numeric primitives every
computed concentration is 0, so all four bands of 2D_contaminant_plot.py are
empty and the mirrored result contains no triple at the grid point (2, 0):
the band-bucketed sampler of that script is not a flat collection
containing a triple for every grid point. -/
theorem C3_counterexample_bucketed_sampler :
    ¬ ∃ c : ℚ, ((2 : ℤ), (0 : ℤ), c) ∈
      (get_all_coord1 (get_data1 num_zero src_test mat_test 1)).flatten := by
  have hz : ∀ w : Well, calc_concentration num_zero src_test mat_test w 1 = 0 := by
    intro w
    unfold calc_concentration convert_to_volume spread_x_positive
      spread_y_positive spread_y_negative num_zero src_test
    norm_num
  have hempty : ∀ p ∈ sample_points num_zero src_test mat_test 1,
      p.2.2 = (0 : ℚ) := by
    intro p hp
    rcases (mem_sample_points_iff _ _ _ _ p).mp hp with ⟨i, _, j, _, rfl⟩
    exact hz _
  have h9 : (sample_points num_zero src_test mat_test 1).filter
      (fun p => decide (900 ≤ p.2.2)) = [] := by
    refine List.filter_eq_nil_iff.mpr fun p hp => ?_
    rw [hempty p hp]
    norm_num
  have h5 : (sample_points num_zero src_test mat_test 1).filter
      (fun p => decide (500 ≤ p.2.2 ∧ p.2.2 < 900)) = [] := by
    refine List.filter_eq_nil_iff.mpr fun p hp => ?_
    rw [hempty p hp]
    norm_num
  have h3 : (sample_points num_zero src_test mat_test 1).filter
      (fun p => decide (300 ≤ p.2.2 ∧ p.2.2 < 500)) = [] := by
    refine List.filter_eq_nil_iff.mpr fun p hp => ?_
    rw [hempty p hp]
    norm_num
  have h1 : (sample_points num_zero src_test mat_test 1).filter
      (fun p => decide (100 ≤ p.2.2 ∧ p.2.2 < 300)) = [] := by
    refine List.filter_eq_nil_iff.mpr fun p hp => ?_
    rw [hempty p hp]
    norm_num
  have hd : get_data1 num_zero src_test mat_test 1 = [[], [], [], []] := by
    simp only [get_data1]
    rw [h9, h5, h3, h1]
  rintro ⟨c, hc⟩
  rw [hd] at hc
  simp [get_all_coord1, reflect_over_y_axis] at hc

/-- Claim C5: every concentration recorded in the full mirrored field is a
well-defined rational that is either exactly zero or strictly positive. -/
theorem C5_field_zero_or_positive (num : Numerics) (source : Source)
    (material : Material) (vt : ℚ) (p : ℤ × ℤ × ℚ)
    (hp : p ∈ full_field2 num source material vt) :
    p.2.2 = 0 ∨ 0 < p.2.2 := by
  have hcalc : ∀ q ∈ sample_points num source material vt,
      q.2.2 = (0 : ℚ) ∨ 0 < q.2.2 := by
    intro q hq
    rcases (mem_sample_points_iff _ _ _ _ q).mp hq with ⟨i, _, j, _, rfl⟩
    show calc_concentration num source material _ vt = 0 ∨
      0 < calc_concentration num source material _ vt
    rw [calc_concentration_def]
    rcases convert_to_volume_zero_or_threshold source
      (spread_x_positive num material
          ⟨ft_to_m ((2 + 2 * i : ℤ) : ℚ), ft_to_m ((j : ℤ) : ℚ)⟩ vt *
        (spread_y_positive num source material
            ⟨ft_to_m ((2 + 2 * i : ℤ) : ℚ), ft_to_m ((j : ℤ) : ℚ)⟩ -
          spread_y_negative num source material
            ⟨ft_to_m ((2 + 2 * i : ℤ) : ℚ), ft_to_m ((j : ℤ) : ℚ)⟩)) with h | h
    · exact Or.inl h
    · exact Or.inr (lt_of_lt_of_le (by norm_num) h)
  rw [full_field2_eq] at hp
  rcases List.mem_append.mp hp with h | h
  · exact hcalc p h
  · rcases List.mem_map.mp h with ⟨q, hq, rfl⟩
    exact hcalc q hq

/-- Concrete witness for claim C5 at a sample of the full field. -/
theorem C5_field_zero_or_positive_witness :
    (((2 : ℤ), (0 : ℤ), calc_concentration num_id src_test mat_test
        ⟨ft_to_m ((2 : ℤ) : ℚ), ft_to_m ((|(0 : ℤ)| : ℤ) : ℚ)⟩ 1) :
      ℤ × ℤ × ℚ).2.2 = 0 ∨
      0 < (((2 : ℤ), (0 : ℤ), calc_concentration num_id src_test mat_test
        ⟨ft_to_m ((2 : ℤ) : ℚ), ft_to_m ((|(0 : ℤ)| : ℤ) : ℚ)⟩ 1) :
      ℤ × ℤ × ℚ).2.2 :=
  C5_field_zero_or_positive num_id src_test mat_test 1 _
    (full_field2_coverage num_id src_test mat_test 1 2 0
      (by decide) (by decide) (by decide) (by decide) (by decide))

/-- Claim C10: the concentration evaluator never returns a value strictly
between 0 and 0.01; every output is exactly zero or at least 0.01. -/
theorem C10_no_values_below_threshold (num : Numerics) (source : Source)
    (material : Material) (well : Well) (vel_time : ℚ) :
    calc_concentration num source material well vel_time = 0 ∨
      0.01 ≤ calc_concentration num source material well vel_time :=
  convert_to_volume_zero_or_threshold source
    (spread_x_positive num material well vel_time *
      (spread_y_positive num source material well -
        spread_y_negative num source material well))

/-- A fold of the graph-final matching loop over a list without any matching
sample returns the accumulator unchanged. -/
lemma lookup_foldl_nomatch (x y : ℤ) (a : ℚ) (l : List (ℤ × ℤ × ℚ))
    (h : ∀ p ∈ l, ¬(x = p.1 ∧ |y| = p.2.1)) :
    l.foldl (fun user_con pair =>
      if x = pair.1 ∧ |y| = pair.2.1 then pair.2.2 else user_con) a = a := by
  induction l generalizing a with
  | nil => rfl
  | cons q t ih =>
    rw [List.foldl_cons, if_neg (h q (List.mem_cons_self q t))]
    exact ih a fun p hp => h p (List.mem_cons_of_mem q hp)

/-- If some sample in the list matches the queried coordinates and every
matching sample carries the value v, the matching loop returns v. -/
lemma lookup_foldl_match (x y : ℤ) (v : ℚ) (l : List (ℤ × ℤ × ℚ)) :
    (∃ p ∈ l, x = p.1 ∧ |y| = p.2.1) →
    (∀ p ∈ l, (x = p.1 ∧ |y| = p.2.1) → p.2.2 = v) →
    ∀ a : ℚ, l.foldl (fun user_con pair =>
      if x = pair.1 ∧ |y| = pair.2.1 then pair.2.2 else user_con) a = v := by
  induction l with
  | nil =>
    rintro ⟨p, hp, _⟩
    exact (List.not_mem_nil p hp).elim
  | cons q t ih =>
    rintro ⟨p, hp, hm⟩ huniq a
    by_cases htm : ∃ r ∈ t, x = r.1 ∧ |y| = r.2.1
    · rw [List.foldl_cons]
      exact ih htm (fun r hr h => huniq r (List.mem_cons_of_mem q hr) h) _
    · have hnt : ∀ r ∈ t, ¬(x = r.1 ∧ |y| = r.2.1) := fun r hr h => htm ⟨r, hr, h⟩
      rcases List.mem_cons.mp hp with rfl | hpt
      · rw [List.foldl_cons, if_pos hm, lookup_foldl_nomatch x y _ t hnt]
        exact huniq p (List.mem_cons_self p t) hm
      · exact absurd ⟨p, hpt, hm⟩ htm

/-- With an odd erf primitive the evaluator is symmetric in the lateral
coordinate. -/
lemma calc_concentration_symm (num : Numerics) (source : Source)
    (material : Material) (dx dy vt : ℚ)
    (hodd : ∀ t, num.erf (-t) = -num.erf t) :
    calc_concentration num source material ⟨dx, -dy⟩ vt =
      calc_concentration num source material ⟨dx, dy⟩ vt := by
  rw [calc_concentration_def, calc_concentration_def]
  unfold spread_x_positive spread_y_positive spread_y_negative
  dsimp only
  have e1 : (-dy + source.width / 2) / (2 * num.sqrt (material.ay * dx)) =
      -((dy - source.width / 2) / (2 * num.sqrt (material.ay * dx))) := by
    ring
  have e2 : (-dy - source.width / 2) / (2 * num.sqrt (material.ay * dx)) =
      -((dy + source.width / 2) / (2 * num.sqrt (material.ay * dx))) := by
    ring
  rw [e1, e2, hodd, hodd]
  congr 1
  ring

/-- Claim C8 (amended, graph-final.py): for every grid point (x, y) with
even x in [2, 448] and y in [-200, 200], and any odd erf primitive, looking
the point up in the sampled triple list tri_data returns exactly the
evaluator result for the meter-converted point. -/
theorem C8_lookup_consistency (num : Numerics) (source : Source)
    (material : Material) (vt : ℚ) (x y : ℤ)
    (hodd : ∀ t, num.erf (-t) = -num.erf t)
    (hx2 : 2 ≤ x) (hx4 : x ≤ 448) (hxe : x % 2 = 0)
    (hy1 : -200 ≤ y) (hy2 : y ≤ 200) :
    get_specific_concentration2 x y (get_data2 num source material vt).2 =
      calc_concentration num source material
        ⟨ft_to_m (x : ℚ), ft_to_m (y : ℚ)⟩ vt := by
  have habs : (x, (|y| : ℤ), calc_concentration num source material
      ⟨ft_to_m (x : ℚ), ft_to_m ((|y| : ℤ) : ℚ)⟩ vt) ∈
      sample_points num source material vt :=
    sample_points_coverage num source material vt x |y| hx2 hx4 hxe
      (abs_nonneg y) (abs_le.mpr ⟨hy1, hy2⟩)
  have hval : get_specific_concentration2 x y
      (get_data2 num source material vt).2 =
      calc_concentration num source material
        ⟨ft_to_m (x : ℚ), ft_to_m ((|y| : ℤ) : ℚ)⟩ vt := by
    show (sample_points num source material vt).foldl _ 0 = _
    refine lookup_foldl_match x y _ (sample_points num source material vt)
      ⟨_, habs, rfl, rfl⟩ ?_ 0
    intro p hp hm
    rcases (mem_sample_points_iff _ _ _ _ p).mp hp with ⟨i, _, j, _, rfl⟩
    obtain ⟨hm1, hm2⟩ := hm
    dsimp only at hm1 hm2 ⊢
    rw [← hm1, ← hm2]
  rw [hval]
  rcases le_or_lt 0 y with hy | hy
  · rw [abs_of_nonneg hy]
  · rw [abs_of_neg hy]
    have hc : ((-y : ℤ) : ℚ) = -(y : ℚ) := by push_cast; ring
    rw [hc]
    have hdiv : ft_to_m (-(y : ℚ)) = -ft_to_m (y : ℚ) := by
      unfold ft_to_m
      ring
    rw [hdiv]
    exact calc_concentration_symm num source material _ _ vt hodd

/-- Concrete witness for claim C8 at the grid point (2, -1) with the odd
identity primitives. -/
theorem C8_lookup_consistency_witness :
    get_specific_concentration2 2 (-1)
        (get_data2 num_id src_test mat_test 1).2 =
      calc_concentration num_id src_test mat_test
        ⟨ft_to_m ((2 : ℤ) : ℚ), ft_to_m ((-1 : ℤ) : ℚ)⟩ 1 :=
  C8_lookup_consistency num_id src_test mat_test 1 2 (-1) (fun t => rfl)
    (by decide) (by decide) (by decide) (by decide) (by decide)

/-- Scanning a filtered list for the first match scans the original list for
the first element satisfying both predicates. -/
lemma find_filter_bool {α : Type} (p q : α → Bool) (l : List α) :
    (l.filter p).find? q = l.find? fun a => p a && q a := by
  induction l with
  | nil => rfl
  | cons x t ih =>
    by_cases hp : p x
    · rw [List.filter_cons_of_pos hp]
      by_cases hq : q x
      · rw [List.find?_cons_of_pos _ hq, List.find?_cons_of_pos]
        simp [hp, hq]
      · rw [List.find?_cons_of_neg _ hq, List.find?_cons_of_neg, ih]
        simp [hp, hq]
    · rw [List.filter_cons_of_neg hp, List.find?_cons_of_neg, ih]
      simp [hp]

/-- Under the identity primitives with the big source, every sample of the
first grid column (x = 2 feet) has concentration 13561.6. -/
lemma calc_big_col2 (dy : ℚ) :
    calc_concentration num_id src_big mat_test
      ⟨ft_to_m 2, dy⟩ 1 = 67808 / 5 := by
  rw [calc_concentration_def]
  have hv : spread_x_positive num_id mat_test ⟨ft_to_m 2, dy⟩ 1 *
      (spread_y_positive num_id src_big mat_test ⟨ft_to_m 2, dy⟩ -
        spread_y_negative num_id src_big mat_test ⟨ft_to_m 2, dy⟩) =
      16952 / 5 := by
    unfold spread_x_positive spread_y_positive spread_y_negative num_id
      src_big mat_test ft_to_m
    dsimp only [id]
    norm_num
    ring_nf
  rw [hv]
  unfold convert_to_volume src_big
  dsimp only
  rw [if_neg (by norm_num)]
  unfold round2
  have hr : round ((16 : ℚ) / 4 * (16952 / 5) * 100) = 1356160 := by
    rw [round_eq,
      show ((16 : ℚ) / 4 * (16952 / 5) * 100 + 1 / 2) = 2712321 / 2 by
        norm_num]
    rw [Int.floor_eq_iff]
    constructor <;> norm_num
  rw [hr]
  norm_num

/-- Under the identity primitives with the big source, the evaluator result
at the meter conversion of the grid point (4, 2) is 14780.8. -/
lemma calc_big_point4 :
    calc_concentration num_id src_big mat_test
      ⟨ft_to_m 4, ft_to_m 2⟩ 1 = 73904 / 5 := by
  rw [calc_concentration_def]
  have hv : spread_x_positive num_id mat_test ⟨ft_to_m 4, ft_to_m 2⟩ 1 *
      (spread_y_positive num_id src_big mat_test ⟨ft_to_m 4, ft_to_m 2⟩ -
        spread_y_negative num_id src_big mat_test ⟨ft_to_m 4, ft_to_m 2⟩) =
      18476 / 5 := by
    unfold spread_x_positive spread_y_positive spread_y_negative num_id
      src_big mat_test ft_to_m
    dsimp only [id]
    norm_num
  rw [hv]
  unfold convert_to_volume src_big
  dsimp only
  rw [if_neg (by norm_num)]
  unfold round2
  have hr : round ((16 : ℚ) / 4 * (18476 / 5) * 100) = 1478080 := by
    rw [round_eq,
      show ((16 : ℚ) / 4 * (18476 / 5) * 100 + 1 / 2) = 2956161 / 2 by
        norm_num]
    rw [Int.floor_eq_iff]
    constructor <;> norm_num
  rw [hr]
  norm_num

/-- Claim C8 counterexample: in 2D_contaminant_plot.py, under the identity
primitives and the big source, the grid point (4, 2) is in the sampled grid,
yet the set-containment lookup scans the over_900 band in order and first
hits the sample keyed (2, 4), returning its concentration 13561.6 instead of
the evaluator result 14780.8 for the meter conversion of (4, 2). -/
theorem C8_counterexample_lookup_mismatch :
    (get_specific_concentration1 4 2
        (get_all_coord1 (get_data1 num_id src_big mat_test 1))).getD 0 ≠
      calc_concentration num_id src_big mat_test ⟨ft_to_m 4, ft_to_m 2⟩ 1 := by
  have hpts : (sample_points num_id src_big mat_test 1).find?
      (fun a => decide (900 ≤ a.2.2) &&
        (coordinate_in_sample 4 a && coordinate_in_sample 2 a)) =
      some ((2 : ℤ), (4 : ℤ), calc_concentration num_id src_big mat_test
        ⟨ft_to_m ((2 : ℤ) : ℚ), ft_to_m ((4 : ℤ) : ℚ)⟩ 1) := by
    have hgx : grid_x =
        (2 : ℤ) :: (List.range' 4 223 2).map (fun n : ℕ => (n : ℤ)) := rfl
    have hgy : grid_y = (0 : ℤ) :: (1 : ℤ) :: (2 : ℤ) :: (3 : ℤ) :: (4 : ℤ) ::
        (List.range' 5 196).map (fun n : ℕ => (n : ℤ)) := by
      unfold grid_y
      rw [List.range_eq_range']
      rfl
    unfold sample_points
    rw [hgx, List.flatMap_cons, List.find?_append]
    rw [hgy]
    simp only [List.map_cons]
    rw [List.find?_cons_of_neg _ (by norm_num [coordinate_in_sample, calc_big_col2]),
      List.find?_cons_of_neg _ (by norm_num [coordinate_in_sample, calc_big_col2]),
      List.find?_cons_of_neg _ (by norm_num [coordinate_in_sample, calc_big_col2]),
      List.find?_cons_of_neg _ (by norm_num [coordinate_in_sample, calc_big_col2]),
      List.find?_cons_of_pos _ (by norm_num [coordinate_in_sample, calc_big_col2])]
    rfl
  have hb9 : ((sample_points num_id src_big mat_test 1).filter
      (fun p => decide (900 ≤ p.2.2))).find?
      (fun lst => coordinate_in_sample 4 lst && coordinate_in_sample 2 lst) =
      some ((2 : ℤ), (4 : ℤ), calc_concentration num_id src_big mat_test
        ⟨ft_to_m ((2 : ℤ) : ℚ), ft_to_m ((4 : ℤ) : ℚ)⟩ 1) := by
    rw [find_filter_bool]
    exact hpts
  have hflat : ((get_all_coord1
      (get_data1 num_id src_big mat_test 1)).flatten).find?
      (fun lst => coordinate_in_sample 4 lst && coordinate_in_sample 2 lst) =
      some ((2 : ℤ), (4 : ℤ), calc_concentration num_id src_big mat_test
        ⟨ft_to_m ((2 : ℤ) : ℚ), ft_to_m ((4 : ℤ) : ℚ)⟩ 1) := by
    simp only [get_all_coord1, get_data1, List.map_cons, List.map_nil,
      List.flatten_cons, List.flatten_nil]
    unfold reflect_over_y_axis
    rw [List.find?_append, List.find?_append, hb9]
    rfl
  have hlook : get_specific_concentration1 4 2
      (get_all_coord1 (get_data1 num_id src_big mat_test 1)) =
      some (calc_concentration num_id src_big mat_test
        ⟨ft_to_m ((2 : ℤ) : ℚ), ft_to_m ((4 : ℤ) : ℚ)⟩ 1) := by
    unfold get_specific_concentration1
    rw [hflat]
    rfl
  rw [hlook, Option.getD_some,
    show (((2 : ℤ)) : ℚ) = 2 from by norm_num,
    calc_big_col2, calc_big_point4]
  norm_num

end Transport
